import Mathlib

/-
Shallow embedding of src/main.py: the UCI validator (is_valid_uci) and the
page-text candidate scanner / resolver (extract_uci).

Strings are modelled as `List Char`, and the Python / regex character
primitives (`\d`, `[A-Z0-9]`, `\w`, `str.isalpha`, `str.upper`, `int(...)`)
are modelled by their ASCII behaviour, which is the fragment the program is
specified and used on.
-/

/-- ASCII decimal digit, modelling the regex class `\d`. -/
def reDigit (c : Char) : Bool := '0' ≤ c && c ≤ '9'

/-- ASCII uppercase letter, modelling the regex range `A-Z`. -/
def reUpper (c : Char) : Bool := 'A' ≤ c && c ≤ 'Z'

/-- The regex character class `[A-HK-MRTVWXY]` at position 12 of the
validator's pattern. -/
def reCheckClass (c : Char) : Bool :=
  ('A' ≤ c && c ≤ 'H') || ('K' ≤ c && c ≤ 'M') ||
  c == 'R' || c == 'T' || c == 'V' || c == 'W' || c == 'X' || c == 'Y'

/-- Python `str.isalpha` on one character (ASCII model). -/
def pyIsAlpha (c : Char) : Bool := reUpper c || ('a' ≤ c && c ≤ 'z')

/-- Python `int(char)`: the value of a decimal digit character, `none`
(a `ValueError`) otherwise (ASCII model). -/
def pyInt (c : Char) : Option Nat :=
  if reDigit c then some (c.toNat - 48) else none

/-- Python `str.upper` on one character (ASCII model). -/
def pyUpper (c : Char) : Char :=
  if 'a' ≤ c && c ≤ 'z' then Char.ofNat (c.toNat - 32) else c

/-- Python regex word character `\w` (ASCII model): letter, digit or
underscore. -/
def pyWordChar (c : Char) : Bool := c.isAlphanum || c == '_'

/-- An exception raised by a fallible operation inside `is_valid_uci`. -/
inductive PyError where
  | keyError
  | valueError
  | indexError
deriving DecidableEq

/-- The dict `alpha_map` of `is_valid_uci`, as an association list in the
source's key order. -/
def alpha_map : List (Char × Nat) :=
  [('A', 1), ('B', 2), ('C', 3), ('D', 4), ('E', 5), ('F', 6), ('G', 7),
   ('H', 8), ('I', 9), ('J', 10), ('K', 11), ('L', 12), ('M', 13), ('N', 14),
   ('O', 15), ('P', 16), ('Q', 10), ('R', 11), ('S', 12), ('T', 13),
   ('U', 14), ('V', 15), ('W', 16), ('X', 10), ('Y', 11), ('Z', 12)]

/-- The string constant `check_digit_map = "ABCDEFGHKLMRTVWXY"`. -/
def check_digit_map : List Char := "ABCDEFGHKLMRTVWXY".toList

/-- The list constant `multipliers = [16, 15, 14, 13, 12, 11, 10, 9, 8, 7, 6, 5]`. -/
def multipliers : List Nat := [16, 15, 14, 13, 12, 11, 10, 9, 8, 7, 6, 5]

/-- The validator's regex `^\d{5}[A-Z0-9]\d{6}[A-HK-MRTVWXY]$`: it can only
match a string of exactly 13 characters, with each position in the indicated
class. -/
def uciShape : List Char → Bool
  | [c0, c1, c2, c3, c4, c5, c6, c7, c8, c9, c10, c11, c12] =>
    reDigit c0 && reDigit c1 && reDigit c2 && reDigit c3 && reDigit c4 &&
    (reUpper c5 || reDigit c5) &&
    reDigit c6 && reDigit c7 && reDigit c8 && reDigit c9 && reDigit c10 &&
    reDigit c11 &&
    reCheckClass c12
  | _ => false

/-- The value computed for the character at index `i` of the checksum loop:
`alpha_map[char]` when `i == 5 and char.isalpha()` (a `KeyError` when the key
is absent), otherwise `int(char)` (a `ValueError` when not a digit). -/
def charValue (i : Nat) (c : Char) : Except PyError Nat :=
  if i == 5 && pyIsAlpha c then
    match alpha_map.lookup c with
    | some v => Except.ok v
    | none => Except.error PyError.keyError
  else
    match pyInt c with
    | some v => Except.ok v
    | none => Except.error PyError.valueError

/-- The `for i, char in enumerate(core_uci)` loop of `is_valid_uci`:
accumulates `value * multipliers[i]`; `multipliers[i]` raises an
`IndexError` when `i` is out of range. -/
def loopSum : List Char → Nat → Nat → Except PyError Nat
  | [], _, acc => Except.ok acc
  | c :: cs, i, acc =>
    match charValue i c with
    | Except.error e => Except.error e
    | Except.ok v =>
      match multipliers.get? i with
      | none => Except.error PyError.indexError
      | some m => loopSum cs (i + 1) (acc + v * m)

/-- Python sequence indexing `l[i]`: an `IndexError` when out of range. -/
def pyIndex {α : Type} (l : List α) (i : Nat) : Except PyError α :=
  match l.get? i with
  | some a => Except.ok a
  | none => Except.error PyError.indexError

/-- `is_valid_uci` from src/main.py with every fallible operation explicit:
`ok b` models `return b`, `error e` models an exception escaping the
function. The `try`/`except` of the source catches exactly `KeyError` and
`ValueError` around the checksum loop. -/
def is_valid_uciE (uci : List Char) : Except PyError Bool :=
  if uci.length ≠ 13 then Except.ok false
  else if !uciShape uci then Except.ok false
  else
    match pyIndex uci 12 with
    | Except.error e => Except.error e
    | Except.ok check_digit_provided =>
      match loopSum (uci.take 12) 0 0 with
      | Except.error PyError.keyError => Except.ok false
      | Except.error PyError.valueError => Except.ok false
      | Except.error PyError.indexError => Except.error PyError.indexError
      | Except.ok total_sum =>
        match pyIndex check_digit_map (total_sum % 17) with
        | Except.error e => Except.error e
        | Except.ok calculated_check_digit =>
          Except.ok (calculated_check_digit == pyUpper check_digit_provided)

/-- `is_valid_uci` as the caller observes it. An escaping exception would be
a crash; it is mapped to `false` here only formally — the theorems below show
the `error` branch is never taken. -/
def is_valid_uci (uci : List Char) : Bool :=
  match is_valid_uciE uci with
  | Except.ok b => b
  | Except.error _ => false

/-- The regex class `[A-Z0-9]` of `extract_uci`'s pattern
`\b[A-Z0-9]{13}\b`. -/
def tokenChar (c : Char) : Bool := reUpper c || reDigit c

/-- The 13-character window of `text` starting at position `p`. -/
def windowAt (text : List Char) (p : Nat) : List Char := (text.drop p).take 13

/-- Whether `\b[A-Z0-9]{13}\b` matches `text` at position `p`: thirteen
`[A-Z0-9]` characters fit at `p`, and since they are word characters the two
`\b` assertions hold exactly when each side is the string edge or a non-word
character. -/
def matchAt (text : List Char) (p : Nat) : Bool :=
  decide (p + 13 ≤ text.length) && (windowAt text p).all tokenChar &&
  (p == 0 || !pyWordChar (text.getD (p - 1) ' ')) &&
  (p + 13 == text.length || !pyWordChar (text.getD (p + 13) ' '))

/-- `re.findall` scanning: try each position left to right; on a match, emit
the matched text and resume at its end. Structural fuel (one unit per tried
position) makes the scan total; `text.length + 1` units always suffice. -/
def findallAux (text : List Char) : Nat → Nat → List (List Char)
  | 0, _ => []
  | fuel + 1, p =>
    if matchAt text p then windowAt text p :: findallAux text fuel (p + 13)
    else findallAux text fuel (p + 1)

/-- `uci_pattern.findall(page_text)` of `extract_uci`, for
`uci_pattern = \b[A-Z0-9]{13}\b`. -/
def findall_uci (page_text : List Char) : List (List Char) :=
  findallAux page_text (page_text.length + 1) 0

/-- The candidate loop of `extract_uci`: the first validated candidate,
`""` (the Python falsy sentinel) when none validates. -/
def find_validated : List (List Char) → List Char
  | [] => []
  | u :: rest => if is_valid_uci u then u else find_validated rest

/-- `extract_uci` from src/main.py. -/
def extract_uci (page_text : List Char) : Option (List Char) :=
  let validated_uci := find_validated (findall_uci page_text)
  if validated_uci.isEmpty then none else some validated_uci

example : is_valid_uci "000000000000A".toList = true := by decide

example : is_valid_uci "000000000000B".toList = false := by decide

example : findall_uci "0000000000000 000000000000A".toList =
    ["0000000000000".toList, "000000000000A".toList] := by decide

example : findall_uci "_0000000000000".toList = [] := by decide

example : extract_uci "0000000000000 000000000000A".toList =
    some ("000000000000A".toList) := by decide

/-- Spec-side check alphabet: the 17-character string "ABCDEFGHKLMRTVWXY"
named in the spec's step 3. -/
def specCheckAlphabet : List Char := "ABCDEFGHKLMRTVWXY".toList

/-- Spec-side alphabetic-value table, exactly as enumerated by the spec:
A1 B2 C3 D4 E5 F6 G7 H8 I9 J10 K11 L12 M13 N14 O15 P16 Q10 R11 S12 T13 U14
V15 W16 X10 Y11 Z12. -/
def specAlphaVal (c : Char) : Nat :=
  if c == 'A' then 1 else if c == 'B' then 2 else if c == 'C' then 3
  else if c == 'D' then 4 else if c == 'E' then 5 else if c == 'F' then 6
  else if c == 'G' then 7 else if c == 'H' then 8 else if c == 'I' then 9
  else if c == 'J' then 10 else if c == 'K' then 11 else if c == 'L' then 12
  else if c == 'M' then 13 else if c == 'N' then 14 else if c == 'O' then 15
  else if c == 'P' then 16 else if c == 'Q' then 10 else if c == 'R' then 11
  else if c == 'S' then 12 else if c == 'T' then 13 else if c == 'U' then 14
  else if c == 'V' then 15 else if c == 'W' then 16 else if c == 'X' then 10
  else if c == 'Y' then 11 else if c == 'Z' then 12 else 0

/-- Spec-side weights 16,15,...,5 for positions 0-11. -/
def specWeights : List Nat := [16, 15, 14, 13, 12, 11, 10, 9, 8, 7, 6, 5]

/-- Spec-side per-position value: position 5 is mapped through the
alphabetic-value table when alphabetic, otherwise the character's decimal
digit value. -/
def specCharVal (i : Nat) (c : Char) : Nat :=
  if i == 5 && pyIsAlpha c then specAlphaVal c else c.toNat - 48

/-- Spec-side weighted checksum over positions 0-11. -/
def specSum (s : List Char) : Nat :=
  ((List.range 12).map (fun i => specCharVal i (s.getD i ' ') * specWeights.getD i 0)).sum

/-- Spec-side lexical shape: five decimal digits, then one character in
[A-Z0-9], then six decimal digits, then one letter of the 17-letter check
alphabet. -/
def specShape (s : List Char) : Bool :=
  s.length == 13 &&
  reDigit (s.getD 0 ' ') && reDigit (s.getD 1 ' ') && reDigit (s.getD 2 ' ') &&
  reDigit (s.getD 3 ' ') && reDigit (s.getD 4 ' ') &&
  (reUpper (s.getD 5 ' ') || reDigit (s.getD 5 ' ')) &&
  reDigit (s.getD 6 ' ') && reDigit (s.getD 7 ' ') && reDigit (s.getD 8 ' ') &&
  reDigit (s.getD 9 ' ') && reDigit (s.getD 10 ' ') && reDigit (s.getD 11 ' ') &&
  decide ((s.getD 12 ' ') ∈ specCheckAlphabet)

/-- Spec-side scanner of claim C2, read literally: a 13-character [A-Z0-9]
window is a candidate when each side is the string edge or a non-alphanumeric
character. -/
def specMatchAlnum (text : List Char) (p : Nat) : Bool :=
  decide (p + 13 ≤ text.length) && (windowAt text p).all tokenChar &&
  (p == 0 || !(text.getD (p - 1) ' ').isAlphanum) &&
  (p + 13 == text.length || !(text.getD (p + 13) ' ').isAlphanum)

/-- The candidate list claim C2 describes, in left-to-right order. -/
def specScanAlnum (text : List Char) : List (List Char) :=
  ((List.range text.length).filter (specMatchAlnum text)).map (windowAt text)

/-- Amended spec-side scanner: as claim C2 but with the boundary being the
string edge or a non-word character (not a letter, digit, or underscore). -/
def specMatchWord (text : List Char) (p : Nat) : Bool :=
  decide (p + 13 ≤ text.length) && (windowAt text p).all tokenChar &&
  (p == 0 || !((text.getD (p - 1) ' ').isAlphanum || (text.getD (p - 1) ' ') == '_')) &&
  (p + 13 == text.length || !((text.getD (p + 13) ' ').isAlphanum || (text.getD (p + 13) ' ') == '_'))

/-- The candidate list of the amended claim C2, in left-to-right order. -/
def specScanWord (text : List Char) : List (List Char) :=
  ((List.range text.length).filter (specMatchWord text)).map (windowAt text)

theorem char_eq_iff_toNat (c d : Char) : c = d ↔ c.toNat = d.toNat := by
  constructor
  · intro h; rw [h]
  · intro h; exact Char.ext (UInt32.ext h)

theorem char_le_iff_toNat (c d : Char) : c ≤ d ↔ c.toNat ≤ d.toNat := by
  rw [Char.le_def, UInt32.le_def, BitVec.le_def]
  exact Iff.rfl

theorem reDigit_toNat (c : Char) : reDigit c = true ↔ 48 ≤ c.toNat ∧ c.toNat ≤ 57 := by
  have h0 : ('0' : Char).toNat = 48 := rfl
  have h9 : ('9' : Char).toNat = 57 := rfl
  simp only [reDigit, Bool.and_eq_true, decide_eq_true_eq, char_le_iff_toNat, h0, h9]

theorem reUpper_toNat (c : Char) : reUpper c = true ↔ 65 ≤ c.toNat ∧ c.toNat ≤ 90 := by
  have hA : ('A' : Char).toNat = 65 := rfl
  have hZ : ('Z' : Char).toNat = 90 := rfl
  simp only [reUpper, Bool.and_eq_true, decide_eq_true_eq, char_le_iff_toNat, hA, hZ]

theorem reCheckClass_toNat (c : Char) :
    reCheckClass c = true ↔
      (65 ≤ c.toNat ∧ c.toNat ≤ 72) ∨ (75 ≤ c.toNat ∧ c.toNat ≤ 77) ∨
      c.toNat = 82 ∨ c.toNat = 84 ∨ c.toNat = 86 ∨ c.toNat = 87 ∨
      c.toNat = 88 ∨ c.toNat = 89 := by
  have hA : ('A' : Char).toNat = 65 := rfl
  have hH : ('H' : Char).toNat = 72 := rfl
  have hK : ('K' : Char).toNat = 75 := rfl
  have hM : ('M' : Char).toNat = 77 := rfl
  have hR : ('R' : Char).toNat = 82 := rfl
  have hT : ('T' : Char).toNat = 84 := rfl
  have hV : ('V' : Char).toNat = 86 := rfl
  have hW : ('W' : Char).toNat = 87 := rfl
  have hX : ('X' : Char).toNat = 88 := rfl
  have hY : ('Y' : Char).toNat = 89 := rfl
  simp only [reCheckClass, Bool.or_eq_true, Bool.and_eq_true, decide_eq_true_eq,
    beq_iff_eq, char_le_iff_toNat, char_eq_iff_toNat, hA, hH, hK, hM, hR, hT,
    hV, hW, hX, hY]
  omega

theorem mem_specCheckAlphabet_toNat (c : Char) :
    c ∈ specCheckAlphabet ↔
      c.toNat = 65 ∨ c.toNat = 66 ∨ c.toNat = 67 ∨ c.toNat = 68 ∨
      c.toNat = 69 ∨ c.toNat = 70 ∨ c.toNat = 71 ∨ c.toNat = 72 ∨
      c.toNat = 75 ∨ c.toNat = 76 ∨ c.toNat = 77 ∨ c.toNat = 82 ∨
      c.toNat = 84 ∨ c.toNat = 86 ∨ c.toNat = 87 ∨ c.toNat = 88 ∨
      c.toNat = 89 := by
  have hl : specCheckAlphabet =
      ['A', 'B', 'C', 'D', 'E', 'F', 'G', 'H', 'K', 'L', 'M', 'R', 'T', 'V',
       'W', 'X', 'Y'] := rfl
  have e1 : ('A' : Char).toNat = 65 := rfl
  have e2 : ('B' : Char).toNat = 66 := rfl
  have e3 : ('C' : Char).toNat = 67 := rfl
  have e4 : ('D' : Char).toNat = 68 := rfl
  have e5 : ('E' : Char).toNat = 69 := rfl
  have e6 : ('F' : Char).toNat = 70 := rfl
  have e7 : ('G' : Char).toNat = 71 := rfl
  have e8 : ('H' : Char).toNat = 72 := rfl
  have e9 : ('K' : Char).toNat = 75 := rfl
  have e10 : ('L' : Char).toNat = 76 := rfl
  have e11 : ('M' : Char).toNat = 77 := rfl
  have e12 : ('R' : Char).toNat = 82 := rfl
  have e13 : ('T' : Char).toNat = 84 := rfl
  have e14 : ('V' : Char).toNat = 86 := rfl
  have e15 : ('W' : Char).toNat = 87 := rfl
  have e16 : ('X' : Char).toNat = 88 := rfl
  have e17 : ('Y' : Char).toNat = 89 := rfl
  rw [hl]
  simp only [List.mem_cons, List.not_mem_nil, or_false, char_eq_iff_toNat,
    e1, e2, e3, e4, e5, e6, e7, e8, e9, e10, e11, e12, e13, e14, e15, e16, e17]

theorem reCheckClass_iff_mem (c : Char) :
    reCheckClass c = true ↔ c ∈ specCheckAlphabet := by
  rw [reCheckClass_toNat, mem_specCheckAlphabet_toNat]
  omega

theorem pyIsAlpha_toNat (c : Char) :
    pyIsAlpha c = true ↔ (65 ≤ c.toNat ∧ c.toNat ≤ 90) ∨ (97 ≤ c.toNat ∧ c.toNat ≤ 122) := by
  have ha : ('a' : Char).toNat = 97 := rfl
  have hz : ('z' : Char).toNat = 122 := rfl
  simp only [pyIsAlpha, Bool.or_eq_true, Bool.and_eq_true, decide_eq_true_eq,
    char_le_iff_toNat, ha, hz, reUpper_toNat]

theorem pyIsAlpha_of_reUpper (c : Char) (h : reUpper c = true) : pyIsAlpha c = true := by
  rw [pyIsAlpha_toNat]
  rw [reUpper_toNat] at h
  omega

theorem pyIsAlpha_of_reDigit (c : Char) (h : reDigit c = true) : pyIsAlpha c = false := by
  rw [reDigit_toNat] at h
  cases hb : pyIsAlpha c
  · rfl
  · rw [pyIsAlpha_toNat] at hb
    omega

theorem pyUpper_eq_self (c : Char) (h : c.toNat ≤ 90) : pyUpper c = c := by
  have ha : ('a' : Char).toNat = 97 := rfl
  have hcond : ('a' ≤ c && c ≤ 'z') = false := by
    have : ¬ ('a' ≤ c) := by
      rw [char_le_iff_toNat, ha]
      omega
    simp [this]
  simp [pyUpper, hcond]

theorem pyInt_of_reDigit (c : Char) (h : reDigit c = true) :
    pyInt c = some (c.toNat - 48) := by
  simp [pyInt, h]

theorem alpha_lookup_aux :
    ∀ n < 91, 65 ≤ n →
      List.lookup (Char.ofNat n) alpha_map = some (specAlphaVal (Char.ofNat n)) := by
  decide

theorem alpha_lookup_upper (c : Char) (h : reUpper c = true) :
    alpha_map.lookup c = some (specAlphaVal c) := by
  rw [reUpper_toNat] at h
  have := alpha_lookup_aux c.toNat (by omega) (by omega)
  rwa [Char.ofNat_toNat] at this

theorem list_len13 (s : List Char) (h : s.length = 13) :
    ∃ c0 c1 c2 c3 c4 c5 c6 c7 c8 c9 c10 c11 c12,
      s = [c0, c1, c2, c3, c4, c5, c6, c7, c8, c9, c10, c11, c12] := by
  rcases s with _ | ⟨c0, s⟩; · simp at h
  rcases s with _ | ⟨c1, s⟩; · simp at h
  rcases s with _ | ⟨c2, s⟩; · simp at h
  rcases s with _ | ⟨c3, s⟩; · simp at h
  rcases s with _ | ⟨c4, s⟩; · simp at h
  rcases s with _ | ⟨c5, s⟩; · simp at h
  rcases s with _ | ⟨c6, s⟩; · simp at h
  rcases s with _ | ⟨c7, s⟩; · simp at h
  rcases s with _ | ⟨c8, s⟩; · simp at h
  rcases s with _ | ⟨c9, s⟩; · simp at h
  rcases s with _ | ⟨c10, s⟩; · simp at h
  rcases s with _ | ⟨c11, s⟩; · simp at h
  rcases s with _ | ⟨c12, s⟩; · simp at h
  rcases s with _ | ⟨c13, s⟩
  · exact ⟨c0, c1, c2, c3, c4, c5, c6, c7, c8, c9, c10, c11, c12, rfl⟩
  · simp at h

theorem uciShape_length (s : List Char) (h : uciShape s = true) : s.length = 13 := by
  rcases s with _ | ⟨c0, s⟩; · simp [uciShape] at h
  rcases s with _ | ⟨c1, s⟩; · simp [uciShape] at h
  rcases s with _ | ⟨c2, s⟩; · simp [uciShape] at h
  rcases s with _ | ⟨c3, s⟩; · simp [uciShape] at h
  rcases s with _ | ⟨c4, s⟩; · simp [uciShape] at h
  rcases s with _ | ⟨c5, s⟩; · simp [uciShape] at h
  rcases s with _ | ⟨c6, s⟩; · simp [uciShape] at h
  rcases s with _ | ⟨c7, s⟩; · simp [uciShape] at h
  rcases s with _ | ⟨c8, s⟩; · simp [uciShape] at h
  rcases s with _ | ⟨c9, s⟩; · simp [uciShape] at h
  rcases s with _ | ⟨c10, s⟩; · simp [uciShape] at h
  rcases s with _ | ⟨c11, s⟩; · simp [uciShape] at h
  rcases s with _ | ⟨c12, s⟩; · simp [uciShape] at h
  rcases s with _ | ⟨c13, s⟩
  · rfl
  · simp [uciShape] at h

theorem uciShape_elim (s : List Char) (h : uciShape s = true) :
    ∃ c0 c1 c2 c3 c4 c5 c6 c7 c8 c9 c10 c11 c12,
      s = [c0, c1, c2, c3, c4, c5, c6, c7, c8, c9, c10, c11, c12] ∧
      reDigit c0 = true ∧ reDigit c1 = true ∧ reDigit c2 = true ∧
      reDigit c3 = true ∧ reDigit c4 = true ∧
      (reUpper c5 = true ∨ reDigit c5 = true) ∧
      reDigit c6 = true ∧ reDigit c7 = true ∧ reDigit c8 = true ∧
      reDigit c9 = true ∧ reDigit c10 = true ∧ reDigit c11 = true ∧
      reCheckClass c12 = true := by
  obtain ⟨c0, c1, c2, c3, c4, c5, c6, c7, c8, c9, c10, c11, c12, rfl⟩ :=
    list_len13 s (uciShape_length s h)
  simp only [uciShape, Bool.and_eq_true, Bool.or_eq_true] at h
  exact ⟨c0, c1, c2, c3, c4, c5, c6, c7, c8, c9, c10, c11, c12, rfl,
    h.1.1.1.1.1.1.1.1.1.1.1.1, h.1.1.1.1.1.1.1.1.1.1.1.2,
    h.1.1.1.1.1.1.1.1.1.1.2, h.1.1.1.1.1.1.1.1.1.2, h.1.1.1.1.1.1.1.1.2,
    h.1.1.1.1.1.1.1.2, h.1.1.1.1.1.1.2, h.1.1.1.1.1.2, h.1.1.1.1.2,
    h.1.1.1.2, h.1.1.2, h.1.2, h.2⟩

theorem charValue_not5_digit (i : Nat) (c : Char) (hi : (i == 5) = false)
    (h : reDigit c = true) : charValue i c = Except.ok (c.toNat - 48) := by
  simp [charValue, hi, pyInt, h]

theorem charValue_pos5_digit (c : Char) (h : reDigit c = true) :
    charValue 5 c = Except.ok (c.toNat - 48) := by
  simp [charValue, pyIsAlpha_of_reDigit c h, pyInt, h]

theorem charValue_pos5_upper (c : Char) (h : reUpper c = true) :
    charValue 5 c = Except.ok (specAlphaVal c) := by
  simp [charValue, pyIsAlpha_of_reUpper c h, alpha_lookup_upper c h]

theorem charValue_no_idx (i : Nat) (c : Char) :
    charValue i c ≠ Except.error PyError.indexError := by
  unfold charValue
  split
  · cases alpha_map.lookup c <;> simp
  · cases pyInt c <;> simp

theorem loopSum_no_idx (cs : List Char) :
    ∀ i acc, cs.length + i ≤ 12 →
      loopSum cs i acc ≠ Except.error PyError.indexError := by
  induction cs with
  | nil => intro i acc _; simp [loopSum]
  | cons c cs ih =>
    intro i acc hlen
    unfold loopSum
    cases hv : charValue i c with
    | error e =>
      simp only
      intro hcontra
      exact charValue_no_idx i c (by rw [hv, hcontra])
    | ok v =>
      simp only
      cases hm : multipliers.get? i with
      | none =>
        exfalso
        rw [List.get?_eq_none] at hm
        have : multipliers.length = 12 := rfl
        simp at hlen
        omega
      | some m =>
        exact ih (i + 1) (acc + v * m) (by simp at hlen ⊢; omega)

theorem loopSum_eq_spec (s : List Char) (h : uciShape s = true) :
    loopSum (s.take 12) 0 0 = Except.ok (specSum s) := by
  obtain ⟨c0, c1, c2, c3, c4, c5, c6, c7, c8, c9, c10, c11, c12, rfl,
    hd0, hd1, hd2, hd3, hd4, hd5, hd6, hd7, hd8, hd9, hd10, hd11, hc12⟩ :=
    uciShape_elim s h
  have htake : ([c0, c1, c2, c3, c4, c5, c6, c7, c8, c9, c10, c11, c12] :
      List Char).take 12 = [c0, c1, c2, c3, c4, c5, c6, c7, c8, c9, c10, c11] := rfl
  have hr : List.range 12 = [0, 1, 2, 3, 4, 5, 6, 7, 8, 9, 10, 11] := rfl
  have h0 := charValue_not5_digit 0 c0 (by decide) hd0
  have h1 := charValue_not5_digit 1 c1 (by decide) hd1
  have h2 := charValue_not5_digit 2 c2 (by decide) hd2
  have h3 := charValue_not5_digit 3 c3 (by decide) hd3
  have h4 := charValue_not5_digit 4 c4 (by decide) hd4
  have h6 := charValue_not5_digit 6 c6 (by decide) hd6
  have h7 := charValue_not5_digit 7 c7 (by decide) hd7
  have h8 := charValue_not5_digit 8 c8 (by decide) hd8
  have h9 := charValue_not5_digit 9 c9 (by decide) hd9
  have h10 := charValue_not5_digit 10 c10 (by decide) hd10
  have h11 := charValue_not5_digit 11 c11 (by decide) hd11
  rw [htake]
  rcases hd5 with h5u | h5d
  · have h5 := charValue_pos5_upper c5 h5u
    have ha5 := pyIsAlpha_of_reUpper c5 h5u
    simp only [loopSum, h0, h1, h2, h3, h4, h5, h6, h7, h8, h9, h10, h11,
      multipliers, List.get?, specSum, hr, List.map, List.sum_cons,
      List.sum_nil, specCharVal, List.getD, List.get?_cons_zero,
      List.get?_cons_succ, specWeights, Option.getD_some]
    simp [ha5]
    omega
  · have h5 := charValue_pos5_digit c5 h5d
    have ha5 := pyIsAlpha_of_reDigit c5 h5d
    simp only [loopSum, h0, h1, h2, h3, h4, h5, h6, h7, h8, h9, h10, h11,
      multipliers, List.get?, specSum, hr, List.map, List.sum_cons,
      List.sum_nil, specCharVal, List.getD, List.get?_cons_zero,
      List.get?_cons_succ, specWeights, Option.getD_some]
    simp [ha5]
    omega

theorem pyIndex_ok_getD {α : Type} (l : List α) (i : Nat) (d : α)
    (h : i < l.length) : pyIndex l i = Except.ok (l.getD i d) := by
  unfold pyIndex
  cases hg : l.get? i with
  | none =>
    exfalso
    rw [List.get?_eq_none] at hg
    omega
  | some a =>
    rw [List.getD_eq_getElem?_getD, ← List.get?_eq_getElem?, hg]
    rfl

theorem invalid_of_not_shape (s : List Char) (h : uciShape s = false) :
    is_valid_uci s = false := by
  unfold is_valid_uci is_valid_uciE
  by_cases hlen : s.length = 13
  · simp [hlen, h]
  · simp [hlen]

theorem length_of_valid (s : List Char) (h : is_valid_uci s = true) :
    s.length = 13 := by
  by_contra hlen
  simp [is_valid_uci, is_valid_uciE, hlen] at h

theorem shape_of_valid (s : List Char) (h : is_valid_uci s = true) :
    uciShape s = true := by
  cases hs : uciShape s with
  | false => rw [invalid_of_not_shape s hs] at h; exact absurd h (by simp)
  | true => rfl

theorem shape_check12 (s : List Char) (hs : uciShape s = true) :
    reCheckClass (s.getD 12 ' ') = true := by
  obtain ⟨c0, c1, c2, c3, c4, c5, c6, c7, c8, c9, c10, c11, c12, rfl,
    -, -, -, -, -, -, -, -, -, -, -, -, hc12⟩ := uciShape_elim s hs
  exact hc12

theorem is_valid_eval (s : List Char) (hs : uciShape s = true) :
    is_valid_uci s = (check_digit_map.getD (specSum s % 17) ' ' == s.getD 12 ' ') := by
  obtain ⟨c0, c1, c2, c3, c4, c5, c6, c7, c8, c9, c10, c11, c12, rfl,
    hd0, hd1, hd2, hd3, hd4, hd5, hd6, hd7, hd8, hd9, hd10, hd11, hc12⟩ :=
    uciShape_elim s hs
  have hup : pyUpper c12 = c12 := by
    rw [reCheckClass_toNat] at hc12
    exact pyUpper_eq_self _ (by omega)
  have hsum := loopSum_eq_spec _ hs
  have htake : (List.take 12
      [c0, c1, c2, c3, c4, c5, c6, c7, c8, c9, c10, c11, c12] : List Char) =
      [c0, c1, c2, c3, c4, c5, c6, c7, c8, c9, c10, c11] := rfl
  rw [htake] at hsum
  have h12 : pyIndex [c0, c1, c2, c3, c4, c5, c6, c7, c8, c9, c10, c11, c12]
      12 = Except.ok c12 := rfl
  have hmod : specSum [c0, c1, c2, c3, c4, c5, c6, c7, c8, c9, c10, c11, c12]
      % 17 < check_digit_map.length := by
    have h17 : check_digit_map.length = 17 := rfl
    rw [h17]
    exact Nat.mod_lt _ (by norm_num)
  have hcdm := pyIndex_ok_getD check_digit_map
    (specSum [c0, c1, c2, c3, c4, c5, c6, c7, c8, c9, c10, c11, c12] % 17)
    ' ' hmod
  unfold is_valid_uci is_valid_uciE
  simp [hs, htake, hsum, h12, hcdm, hup]

theorem is_valid_uciE_no_error (s : List Char) :
    ∃ b, is_valid_uciE s = Except.ok b := by
  by_cases hlen : s.length = 13
  · by_cases hs : uciShape s = true
    · have h12 : pyIndex s 12 = Except.ok (s.getD 12 ' ') :=
        pyIndex_ok_getD s 12 ' ' (by omega)
      have hled : (s.take 12).length + 0 ≤ 12 := by
        simp [List.length_take]
      rcases hls : loopSum (s.take 12) 0 0 with e | n
      · rcases e with - | - | -
        · exact ⟨false, by unfold is_valid_uciE; simp [hlen, hs, h12, hls]⟩
        · exact ⟨false, by unfold is_valid_uciE; simp [hlen, hs, h12, hls]⟩
        · exact absurd hls (loopSum_no_idx (s.take 12) 0 0 hled)
      · have hmod : n % 17 < check_digit_map.length := by
          have h17 : check_digit_map.length = 17 := rfl
          rw [h17]
          exact Nat.mod_lt _ (by norm_num)
        have hcdm : pyIndex check_digit_map (n % 17) =
            Except.ok (check_digit_map.getD (n % 17) ' ') :=
          pyIndex_ok_getD _ _ _ hmod
        exact ⟨(check_digit_map.getD (n % 17) ' ' == pyUpper (s.getD 12 ' ')),
          by unfold is_valid_uciE; simp [hlen, hs, h12, hls, hcdm]⟩
    · exact ⟨false, by unfold is_valid_uciE; simp [hlen, hs]⟩
  · exact ⟨false, by unfold is_valid_uciE; simp [hlen]⟩

theorem is_valid_uciE_eq_ok (s : List Char) :
    is_valid_uciE s = Except.ok (is_valid_uci s) := by
  obtain ⟨b, hb⟩ := is_valid_uciE_no_error s
  rw [hb]
  unfold is_valid_uci
  rw [hb]

theorem uciShape_iff_specShape (s : List Char) :
    uciShape s = true ↔ specShape s = true := by
  constructor
  · intro h
    obtain ⟨c0, c1, c2, c3, c4, c5, c6, c7, c8, c9, c10, c11, c12, rfl,
      hd0, hd1, hd2, hd3, hd4, hd5, hd6, hd7, hd8, hd9, hd10, hd11, hc12⟩ :=
      uciShape_elim s h
    have hmem : c12 ∈ specCheckAlphabet := (reCheckClass_iff_mem c12).mp hc12
    have h5or : (reUpper c5 || reDigit c5) = true := by
      rcases hd5 with h5 | h5 <;> simp [h5]
    simp only [specShape, Bool.and_eq_true]
    exact ⟨⟨⟨⟨⟨⟨⟨⟨⟨⟨⟨⟨⟨rfl, hd0⟩, hd1⟩, hd2⟩, hd3⟩, hd4⟩, h5or⟩, hd6⟩, hd7⟩,
      hd8⟩, hd9⟩, hd10⟩, hd11⟩, decide_eq_true hmem⟩
  · intro h
    have hlen : s.length = 13 := by
      by_contra hne
      have hf : (s.length == 13) = false := by simp [hne]
      simp [specShape, hf] at h
    obtain ⟨c0, c1, c2, c3, c4, c5, c6, c7, c8, c9, c10, c11, c12, rfl⟩ :=
      list_len13 s hlen
    simp only [specShape, Bool.and_eq_true, decide_eq_true_eq] at h
    simp only [uciShape, Bool.and_eq_true]
    exact ⟨⟨⟨⟨⟨⟨⟨⟨⟨⟨⟨⟨h.1.1.1.1.1.1.1.1.1.1.1.1.2,
      h.1.1.1.1.1.1.1.1.1.1.1.2⟩, h.1.1.1.1.1.1.1.1.1.1.2⟩,
      h.1.1.1.1.1.1.1.1.1.2⟩, h.1.1.1.1.1.1.1.1.2⟩, h.1.1.1.1.1.1.1.2⟩,
      h.1.1.1.1.1.1.2⟩, h.1.1.1.1.1.2⟩, h.1.1.1.1.2⟩, h.1.1.1.2⟩,
      h.1.1.2⟩, h.1.2⟩, (reCheckClass_iff_mem c12).mpr h.2⟩

/-- Claim C1: for every 13-character string s, is_valid_uci accepts s iff
(a) s matches the lexical shape — five decimal digits, one character in
[A-Z0-9], six decimal digits, one letter of the 17-letter check alphabet —
and (b) the weighted mod-17 checksum over positions 0-11 selects, as a
0-based index into "ABCDEFGHKLMRTVWXY", exactly the character at
position 12. -/
theorem claim_C1 (s : List Char) (h : s.length = 13) :
    is_valid_uci s = true ↔
      (specShape s = true ∧
        specCheckAlphabet.getD (specSum s % 17) ' ' = s.getD 12 ' ') := by
  have hconv : specCheckAlphabet = check_digit_map := rfl
  constructor
  · intro hv
    have hsu := shape_of_valid s hv
    refine ⟨(uciShape_iff_specShape s).mp hsu, ?_⟩
    rw [is_valid_eval s hsu] at hv
    rw [hconv]
    exact eq_of_beq hv
  · rintro ⟨hsp, heq⟩
    have hsu := (uciShape_iff_specShape s).mpr hsp
    rw [is_valid_eval s hsu]
    rw [hconv] at heq
    exact beq_iff_eq.mpr heq

/-- Witness for claim C1 at the concrete string "000000000000A". -/
theorem claim_C1_witness :
    ("000000000000A".toList.length = 13) ∧
      (is_valid_uci "000000000000A".toList = true ↔
        (specShape "000000000000A".toList = true ∧
          specCheckAlphabet.getD (specSum "000000000000A".toList % 17) ' ' =
            "000000000000A".toList.getD 12 ' ')) :=
  ⟨by decide, claim_C1 _ (by decide)⟩

/-- Claim C5: in the checksum loop, an alphabetic character at position 5 is
valued by exactly the table A=1 B=2 ... P=16 Q=10 ... Z=12; a digit at
position 5 and the character at every other position contributes its decimal
digit value; and on every string passing the lexical shape the loop total is
the sum of these values multiplied by the weights 16,15,...,5. -/
theorem claim_C5 :
    (∀ c : Char, reUpper c = true →
      charValue 5 c = Except.ok (specAlphaVal c)) ∧
    (∀ c : Char, reDigit c = true →
      charValue 5 c = Except.ok (c.toNat - 48)) ∧
    (∀ i : Nat, ∀ c : Char, (i == 5) = false → reDigit c = true →
      charValue i c = Except.ok (c.toNat - 48)) ∧
    (∀ s : List Char, uciShape s = true →
      loopSum (s.take 12) 0 0 = Except.ok (specSum s)) :=
  ⟨charValue_pos5_upper, charValue_pos5_digit,
   fun i c hi hc => charValue_not5_digit i c hi hc,
   fun s hs => loopSum_eq_spec s hs⟩

/-- Witness for claim C5 at concrete characters and a concrete candidate. -/
theorem claim_C5_witness :
    charValue 5 'J' = Except.ok (specAlphaVal 'J') ∧
    charValue 5 '7' = Except.ok ('7'.toNat - 48) ∧
    charValue 0 '9' = Except.ok ('9'.toNat - 48) ∧
    loopSum ("00000J000000A".toList.take 12) 0 0 =
      Except.ok (specSum "00000J000000A".toList) :=
  ⟨claim_C5.1 'J' (by decide), claim_C5.2.1 '7' (by decide),
   claim_C5.2.2.1 0 '9' (by decide) (by decide),
   claim_C5.2.2.2 _ (by decide)⟩

/-- Claim C6: every string whose length is not 13 is rejected by
is_valid_uci. -/
theorem claim_C6 (s : List Char) (h : s.length ≠ 13) :
    is_valid_uci s = false := by
  simp [is_valid_uci, is_valid_uciE, h]

/-- Witness for claim C6 at a concrete 4-character string. -/
theorem claim_C6_witness :
    ("1234".toList.length ≠ 13) ∧ is_valid_uci "1234".toList = false :=
  ⟨by decide, claim_C6 _ (by decide)⟩

/-- Claim C8: the string of twelve zeros followed by A validates (sum 0,
remainder 0, expected character A, the first character of the check
alphabet), and the same string ending in B does not. -/
theorem claim_C8 :
    is_valid_uci "000000000000A".toList = true ∧
    specSum "000000000000A".toList = 0 ∧
    specSum "000000000000A".toList % 17 = 0 ∧
    specCheckAlphabet.getD 0 ' ' = 'A' ∧
    is_valid_uci "000000000000B".toList = false := by
  decide

/-- Claim C9: is_valid_uci is total and exception-free: in the
explicit-exception model it always returns ok (no error ever escapes, for
any string), and any string failing the lexical shape — empty or malformed —
yields the boolean false rather than an error. -/
theorem claim_C9 (s : List Char) :
    is_valid_uciE s = Except.ok (is_valid_uci s) ∧
    (uciShape s = false → is_valid_uci s = false) :=
  ⟨is_valid_uciE_eq_ok s, fun h => invalid_of_not_shape s h⟩

/-- Witness for claim C9 at a concrete malformed string. -/
theorem claim_C9_witness :
    is_valid_uciE "12AB!".toList = Except.ok (is_valid_uci "12AB!".toList) ∧
    is_valid_uci "12AB!".toList = false :=
  ⟨(claim_C9 "12AB!".toList).1, (claim_C9 "12AB!".toList).2 (by decide)⟩

/-- Claim C10: once the lexical regex has matched, the error branch of the
checksum loop is unreachable: the loop over the first 12 characters returns
ok — every position-5 letter is in the table and every other character
parses as a digit. -/
theorem claim_C10 (s : List Char) (h : uciShape s = true) :
    ∃ n, loopSum (s.take 12) 0 0 = Except.ok n :=
  ⟨specSum s, loopSum_eq_spec s h⟩

/-- Witness for claim C10 at a concrete shape-passing candidate with a
letter at position 5. -/
theorem claim_C10_witness :
    uciShape "00000Z000000A".toList = true ∧
    ∃ n, loopSum ("00000Z000000A".toList.take 12) 0 0 = Except.ok n :=
  ⟨by decide, claim_C10 _ (by decide)⟩

theorem matchAt_le (text : List Char) (p : Nat) (h : matchAt text p = true) :
    p + 13 ≤ text.length := by
  simp only [matchAt, Bool.and_eq_true, decide_eq_true_eq] at h
  exact h.1.1.1

theorem matchAt_window_all (text : List Char) (p : Nat)
    (h : matchAt text p = true) : (windowAt text p).all tokenChar = true := by
  simp only [matchAt, Bool.and_eq_true, decide_eq_true_eq] at h
  exact h.1.1.2

theorem windowAt_length (text : List Char) (p : Nat)
    (h : p + 13 ≤ text.length) : (windowAt text p).length = 13 := by
  simp [windowAt, List.length_take, List.length_drop]
  omega

theorem windowAt_getD (text : List Char) (p j : Nat) (hj : j < 13) :
    (windowAt text p).getD j ' ' = text.getD (p + j) ' ' := by
  simp [windowAt, List.getD_eq_getElem?_getD, List.getElem?_take, hj,
    List.getElem?_drop]

theorem tokenChar_imp_word (c : Char) (h : tokenChar c = true) :
    pyWordChar c = true := by
  simp only [tokenChar, Bool.or_eq_true] at h
  simp only [pyWordChar, Char.isAlphanum, Char.isAlpha, Char.isUpper,
    Char.isDigit, Bool.or_eq_true]
  rcases h with h | h
  · rw [reUpper_toNat] at h
    left; left; left
    rw [Bool.and_eq_true, decide_eq_true_eq, decide_eq_true_eq]
    constructor
    · show (65 : UInt32) ≤ c.val
      rw [UInt32.le_def, BitVec.le_def]
      exact h.1
    · show c.val ≤ (90 : UInt32)
      rw [UInt32.le_def, BitVec.le_def]
      exact h.2
  · rw [reDigit_toNat] at h
    left; right
    rw [Bool.and_eq_true, decide_eq_true_eq, decide_eq_true_eq]
    constructor
    · show (48 : UInt32) ≤ c.val
      rw [UInt32.le_def, BitVec.le_def]
      exact h.1
    · show c.val ≤ (57 : UInt32)
      rw [UInt32.le_def, BitVec.le_def]
      exact h.2

theorem matchAt_tokenChar (text : List Char) (p j : Nat)
    (hm : matchAt text p = true) (hj : j < 13) :
    tokenChar (text.getD (p + j) ' ') = true := by
  have hall := matchAt_window_all text p hm
  have hlw : (windowAt text p).length = 13 :=
    windowAt_length text p (matchAt_le text p hm)
  have hmem : (windowAt text p).getD j ' ' ∈ windowAt text p := by
    rw [List.getD_eq_getElem?_getD, List.getElem?_eq_getElem (by omega)]
    exact List.getElem_mem _
  have ht := List.all_eq_true.mp hall _ hmem
  rwa [windowAt_getD text p j hj] at ht

theorem matchAt_false_in_run (text : List Char) (p k : Nat)
    (hm : matchAt text p = true) (h1 : 1 ≤ k) (h2 : k ≤ 12) :
    matchAt text (p + k) = false := by
  have htc : tokenChar (text.getD (p + (k - 1)) ' ') = true :=
    matchAt_tokenChar text p (k - 1) hm (by omega)
  have hw : pyWordChar (text.getD (p + k - 1) ' ') = true := by
    have hww := tokenChar_imp_word _ htc
    have heq : p + (k - 1) = p + k - 1 := by omega
    rwa [heq] at hww
  cases hmk : matchAt text (p + k) with
  | false => rfl
  | true =>
    exfalso
    simp only [matchAt, Bool.and_eq_true, Bool.or_eq_true, beq_iff_eq,
      Bool.not_eq_true'] at hmk
    rcases hmk.1.2 with h0 | hwf
    · omega
    · rw [hw] at hwf
      exact absurd hwf (by simp)

theorem findallAux_eq (text : List Char) :
    ∀ fuel p, text.length < p + fuel →
      findallAux text fuel p =
        ((List.range' p (text.length - p)).filter (matchAt text)).map
          (windowAt text) := by
  intro fuel
  induction fuel with
  | zero =>
    intro p h
    have h0 : text.length - p = 0 := by omega
    simp [findallAux, h0]
  | succ f ih =>
    intro p h
    by_cases hm : matchAt text p = true
    · have hp13 := matchAt_le text p hm
      have hsplit : text.length - p = (text.length - (p + 13)) + 13 := by
        omega
      rw [findallAux, if_pos hm, ih (p + 13) (by omega), hsplit]
      have happ : List.range' p ((text.length - (p + 13)) + 13) =
          List.range' p 13 ++ List.range' (p + 13) (text.length - (p + 13)) := by
        have := List.range'_append p 13 (text.length - (p + 13)) 1
        simpa using this.symm
      rw [happ, List.filter_append, List.map_append]
      have h13 : List.range' p 13 = p :: List.range' (p + 1) 12 := by
        rw [show (13 : Nat) = 12 + 1 from rfl, List.range'_succ]
      have hnil : (List.range' (p + 1) 12).filter (matchAt text) = [] := by
        rw [List.filter_eq_nil_iff]
        intro q hq
        rw [List.mem_range'_1] at hq
        have hqp : q = p + (q - p) := by omega
        rw [hqp, matchAt_false_in_run text p (q - p) hm (by omega) (by omega)]
        simp
      rw [h13, List.filter_cons, if_pos hm, hnil]
      simp
    · have hmf : matchAt text p = false := by simpa using hm
      rw [findallAux, if_neg hm, ih (p + 1) (by omega)]
      by_cases hp : p < text.length
      · have hstep : text.length - p = (text.length - (p + 1)) + 1 := by omega
        rw [hstep, List.range'_succ, List.filter_cons, hmf]
        simp
      · have ha : text.length - p = 0 := by omega
        have hb : text.length - (p + 1) = 0 := by omega
        simp [ha, hb]

theorem findall_uci_eq (text : List Char) :
    findall_uci text =
      ((List.range text.length).filter (matchAt text)).map (windowAt text) := by
  unfold findall_uci
  rw [findallAux_eq text (text.length + 1) 0 (by omega)]
  rw [List.range_eq_range']
  simp

/-- Counterexample to claim C2 as stated: an underscore is not alphanumeric,
so the claim demands that the 13-character run in "_0000000000000" be a
candidate, but the scanner (whose \b treats the underscore as a word
character) finds nothing. -/
theorem claim_C2_cex :
    specScanAlnum "_0000000000000".toList = ["0000000000000".toList] ∧
    findall_uci "_0000000000000".toList = [] := by
  decide

/-- Claim C2 as amended: the scanner finds every 13-character [A-Z0-9]
window bounded on both sides by the string edge or a non-word character
(not a letter, a digit, or an underscore), in left-to-right order. -/
theorem claim_C2 (text : List Char) : findall_uci text = specScanWord text := by
  rw [findall_uci_eq]
  rfl

theorem find_validated_spec (cands : List (List Char)) :
    (if (find_validated cands).isEmpty then none
     else some (find_validated cands)) = cands.find? is_valid_uci := by
  induction cands with
  | nil => simp [find_validated]
  | cons u rest ih =>
    cases hv : is_valid_uci u with
    | false =>
      rw [List.find?_cons_of_neg _ (by simp [hv]), ← ih]
      simp [find_validated, hv]
    | true =>
      rw [List.find?_cons_of_pos _ hv]
      have h13 := length_of_valid u hv
      have hne : u.isEmpty = false := by
        cases u
        · simp at h13
        · rfl
      simp [find_validated, hv, hne]

/-- Claim C3: extract_uci returns the first scanner candidate that
validates, none when no candidate validates or there are no candidates; in
particular with exactly two candidates of which only the second validates it
returns the second. -/
theorem claim_C3 (text : List Char) :
    extract_uci text = (findall_uci text).find? is_valid_uci ∧
    (findall_uci text = [] → extract_uci text = none) ∧
    (∀ c1 c2, findall_uci text = [c1, c2] → is_valid_uci c1 = false →
      is_valid_uci c2 = true → extract_uci text = some c2) := by
  have hmain : extract_uci text = (findall_uci text).find? is_valid_uci := by
    unfold extract_uci
    exact find_validated_spec (findall_uci text)
  refine ⟨hmain, ?_, ?_⟩
  · intro h
    rw [hmain, h]
    rfl
  · intro c1 c2 hl h1 h2
    rw [hmain, hl, List.find?_cons_of_neg _ (by simp [h1]),
      List.find?_cons_of_pos _ (by simp [h2])]

/-- Witness for claim C3: a page with two candidates of which only the
second validates yields the second; a page with no candidate yields none. -/
theorem claim_C3_witness :
    extract_uci "0000000000000 000000000000A".toList =
      some ("000000000000A".toList) ∧
    extract_uci "no candidates here".toList = none :=
  ⟨(claim_C3 "0000000000000 000000000000A".toList).2.2
      "0000000000000".toList "000000000000A".toList
      (by decide) (by decide) (by decide),
   (claim_C3 "no candidates here".toList).2.1 (by decide)⟩

/-- Claim C7: every scanner candidate has length exactly 13 and occurs at a
position where both neighbours (when they exist) are non-alphanumeric, so no
candidate is a sub-run of a longer alphanumeric run. -/
theorem claim_C7 (text : List Char) (t : List Char)
    (ht : t ∈ findall_uci text) :
    t.length = 13 ∧
    ∃ p, p + 13 ≤ text.length ∧ t = windowAt text p ∧
      (p = 0 ∨ (text.getD (p - 1) ' ').isAlphanum = false) ∧
      (p + 13 = text.length ∨ (text.getD (p + 13) ' ').isAlphanum = false) := by
  rw [findall_uci_eq] at ht
  simp only [List.mem_map, List.mem_filter, List.mem_range] at ht
  obtain ⟨p, ⟨hpr, hpm⟩, rfl⟩ := ht
  have hle := matchAt_le text p hpm
  refine ⟨windowAt_length text p hle, p, hle, rfl, ?_, ?_⟩
  · simp only [matchAt, Bool.and_eq_true, Bool.or_eq_true, beq_iff_eq,
      Bool.not_eq_true'] at hpm
    rcases hpm.1.2 with h0 | hw
    · exact Or.inl h0
    · right
      rw [pyWordChar, Bool.or_eq_false_iff] at hw
      exact hw.1
  · simp only [matchAt, Bool.and_eq_true, Bool.or_eq_true, beq_iff_eq,
      Bool.not_eq_true'] at hpm
    rcases hpm.2 with h0 | hw
    · exact Or.inl h0
    · right
      rw [pyWordChar, Bool.or_eq_false_iff] at hw
      exact hw.1

/-- Witness for claim C7 at a concrete 13-character page text. -/
theorem claim_C7_witness :
    "ABCDEFGHKLMRT".toList.length = 13 ∧
    ∃ p, p + 13 ≤ "ABCDEFGHKLMRT".toList.length ∧
      "ABCDEFGHKLMRT".toList = windowAt "ABCDEFGHKLMRT".toList p ∧
      (p = 0 ∨ ("ABCDEFGHKLMRT".toList.getD (p - 1) ' ').isAlphanum = false) ∧
      (p + 13 = "ABCDEFGHKLMRT".toList.length ∨
        ("ABCDEFGHKLMRT".toList.getD (p + 13) ' ').isAlphanum = false) :=
  claim_C7 "ABCDEFGHKLMRT".toList "ABCDEFGHKLMRT".toList (by decide)

/-- Counterexample to claim C4 as stated: "000000000000a" carries the
correct check letter for its all-zero core in lowercase (the uppercase form
"000000000000A" passes the lexical shape and the expected check character is
A), yet the validator rejects it — the lexical shape already requires an
uppercase check character, so the final .upper() never rescues a lowercase
one. -/
theorem claim_C4_cex :
    uciShape "000000000000A".toList = true ∧
    pyUpper 'a' = 'A' ∧
    check_digit_map.getD (specSum "000000000000a".toList % 17) ' ' = 'A' ∧
    is_valid_uci "000000000000a".toList = false := by
  decide

/-- Claim C4 as amended: validation is case-sensitive at every position,
including the final check character: a lowercase letter anywhere in the
candidate is rejected by the lexical shape. -/
theorem claim_C4 (s : List Char) (i : Nat)
    (h1 : 'a' ≤ s.getD i ' ') (h2 : s.getD i ' ' ≤ 'z') :
    is_valid_uci s = false := by
  rw [char_le_iff_toNat] at h1 h2
  have ha : ('a' : Char).toNat = 97 := rfl
  have hz : ('z' : Char).toNat = 122 := rfl
  rw [ha] at h1
  rw [hz] at h2
  cases hv : is_valid_uci s with
  | false => rfl
  | true =>
    exfalso
    have hs := shape_of_valid s hv
    obtain ⟨c0, c1, c2, c3, c4, c5, c6, c7, c8, c9, c10, c11, c12, rfl,
      hd0, hd1, hd2, hd3, hd4, hd5, hd6, hd7, hd8, hd9, hd10, hd11, hc12⟩ :=
      uciShape_elim s hs
    have hb0 := (reDigit_toNat c0).mp hd0
    have hb1 := (reDigit_toNat c1).mp hd1
    have hb2 := (reDigit_toNat c2).mp hd2
    have hb3 := (reDigit_toNat c3).mp hd3
    have hb4 := (reDigit_toNat c4).mp hd4
    have hb5 : c5.toNat ≤ 90 := by
      rcases hd5 with h | h
      · have := (reUpper_toNat c5).mp h
        omega
      · have := (reDigit_toNat c5).mp h
        omega
    have hb6 := (reDigit_toNat c6).mp hd6
    have hb7 := (reDigit_toNat c7).mp hd7
    have hb8 := (reDigit_toNat c8).mp hd8
    have hb9 := (reDigit_toNat c9).mp hd9
    have hb10 := (reDigit_toNat c10).mp hd10
    have hb11 := (reDigit_toNat c11).mp hd11
    have hb12 := (reCheckClass_toNat c12).mp hc12
    by_cases hi : i < 13
    · interval_cases i <;>
        simp only [List.getD_cons_zero, List.getD_cons_succ] at h1 h2 <;>
        omega
    · rw [List.getD_eq_default _ _ (by simp; omega)] at h1
      have hsp : (' ' : Char).toNat = 32 := rfl
      rw [hsp] at h1
      omega

/-- Witness for the amended claim C4 at the lowercase check character of
"000000000000a". -/
theorem claim_C4_witness :
    ('a' ≤ "000000000000a".toList.getD 12 ' ') ∧
    ("000000000000a".toList.getD 12 ' ' ≤ 'z') ∧
    is_valid_uci "000000000000a".toList = false :=
  ⟨by decide, by decide, claim_C4 "000000000000a".toList 12
    (by decide) (by decide)⟩
